import Mathlib

/-!
Verification of the three-body gravity simulation (`src/simulation.rs`,
`src/cursor.rs`, `src/main.rs`).

Shallow embedding conventions:
* `f64` scalars are embedded as `ℚ` with exact arithmetic (the spec's
  properties are stated up to floating-point rounding, which this model
  treats as exact; the claims under verification are about the algorithmic
  structure, not about accumulated rounding of `f64` operations).
* The one precision boundary the code itself makes explicit — the
  narrowing cast `f64 -> f32` performed by `DVec3::as_vec3()` when the
  integrator writes the render `Transform.translation`, and re-read by
  `gravity` through `GlobalTransform::translation().as_dvec3()` — is
  modelled faithfully by `toF32`, IEEE-754 binary32 round-to-nearest,
  ties-to-even, on the normal and subnormal finite range (values beyond
  the f32 finite range never occur in any statement below).  The widening
  cast `f32 -> f64` (`as_dvec3`, `as_dvec2`) is exact, hence the identity
  here: the `translation` field of a body already stores the f32 value.
* Bevy ECS plumbing (queries, commands, meshes, materials) is flattened:
  a body entity is one record holding the components of `BodyBundle`
  (`Position`, `Velocity`, `Mass`, `Acceleration`, `Transform.translation`,
  `BodyConfig`, optional `TrailRef`), a trail entity one record holding
  `Trail` and its entity id; deferred `Commands` are applied in system
  order, which is observationally equivalent for the per-frame properties
  proved here.
-/

namespace ThreeBody

/-- Rust `bevy::math::DVec3` (three `f64` components), embedded as `ℚ × ℚ × ℚ`. -/
abbrev DVec3 : Type := ℚ × ℚ × ℚ

/-- Rust `bevy::math::Vec2` (two `f32` components). -/
abbrev Vec2 : Type := ℚ × ℚ

/-- Rust `bevy::color::LinearRgba` (red, green, blue, alpha). -/
abbrev LinearRgba : Type := ℚ × ℚ × ℚ × ℚ

/-- `LinearRgba::rgb(r, g, b)`: alpha defaults to 1. -/
def LinearRgba.rgb (r g b : ℚ) : LinearRgba := (r, g, b, 1)

/-- `DVec3::length_squared()` (glam): the dot product of the vector with itself. -/
def length_squared (v : DVec3) : ℚ := v.1 * v.1 + v.2.1 * v.2.1 + v.2.2 * v.2.2

/-- Round a rational to the nearest integer, ties to even (IEEE-754 default
rounding, used by Rust `as` float narrowing casts). -/
def rne (q : ℚ) : ℤ :=
  if q - ⌊q⌋ < 1/2 then ⌊q⌋
  else if 1/2 < q - ⌊q⌋ then ⌊q⌋ + 1
  else if 2 ∣ ⌊q⌋ then ⌊q⌋ else ⌊q⌋ + 1

/-- Model of the Rust narrowing cast `f64 as f32` on a finite value: round to
24 significant bits (subnormals: to a multiple of `2⁻¹⁴⁹`), nearest,
ties-to-even.  Inputs at or beyond the f32 finite range (`|q| ≥ 2¹²⁸ - 2¹⁰³`,
where the cast overflows to infinity) do not occur in any statement below. -/
def toF32 (q : ℚ) : ℚ :=
  if q = 0 then 0
  else (rne (q / 2 ^ max (Int.log 2 |q| - 23) (-149)) : ℚ)
         * 2 ^ max (Int.log 2 |q| - 23) (-149)

/-- Rust `DVec3::as_vec3()`: componentwise `f64 as f32` narrowing. -/
def as_vec3 (v : DVec3) : DVec3 := (toF32 v.1, toF32 v.2.1, toF32 v.2.2)

/-- `const G: f64 = 11.334e-12;` (src/simulation.rs line 9). -/
def G : ℚ := 11.334e-12

/-- The components of one body entity that the simulation systems read and
write: `Position(DVec3)`, `Velocity(DVec3)`, `Mass(f64)`,
`Acceleration(DVec3)`, and the render `Transform.translation` (an f32 vector;
`gravity` reads it back through `GlobalTransform::translation().as_dvec3()`,
an exact widening, so the field stores the f32 value directly). -/
@[ext] structure BodyState where
  position : DVec3
  velocity : DVec3
  mass : ℚ
  acceleration : DVec3
  translation : DVec3
deriving DecidableEq, Repr

/-- The `force_unit_mass` vector of the `gravity` pair loop for the pair
`(b, c)` seen from `b`: `delta * (G / distance_sq)` with
`delta = c.translation - b.translation`, and `0` when the pair is skipped
(`distance_sq == 0.0`). -/
def force_unit_mass (b c : BodyState) : DVec3 :=
  let delta := c.translation - b.translation
  let distance_sq := length_squared delta
  if distance_sq = 0 then 0 else (G / distance_sq) • delta

/-- The net contribution the `gravity` pass adds to `b.acceleration` from its
interaction with `c`: `force_unit_mass * c.mass` (`0` for a skipped
coincident pair).  For `i < j` the loop body literally adds
`accelContrib bᵢ bⱼ` to `aᵢ` and subtracts `bⱼ.mass • force_unit_mass bᵢ bⱼ`
from `aⱼ` — which equals adding `accelContrib bⱼ bᵢ`. -/
def accelContrib (b c : BodyState) : DVec3 := c.mass • force_unit_mass b c

/-- The inner `gravity` loop: the interactions of the first fetched body `b`
with every later body, in query order — pairs `(b, c)` for `c` in `rest`.
Mirrors the `iter_combinations_mut` loop body (src/simulation.rs 252-269):
`a1 += force_unit_mass * m2; a2 -= force_unit_mass * m1`, with coincident
pairs (`distance_sq == 0.0`) skipped by `continue`. -/
def gravity_inner : BodyState → List BodyState → BodyState × List BodyState
  | b, [] => (b, [])
  | b, c :: cs =>
    let delta := c.translation - b.translation
    let distance_sq := length_squared delta
    if distance_sq = 0 then
      let r := gravity_inner b cs
      (r.1, c :: r.2)
    else
      let f := G / distance_sq
      let fum := f • delta
      let r := gravity_inner { b with acceleration := b.acceleration + c.mass • fum } cs
      (r.1, { c with acceleration := c.acceleration - b.mass • fum } :: r.2)

/-- The outer `gravity` loop over all combinations, structured by the first
element of each pair; the fuel argument (always the list length, which
`gravity_inner` preserves) keeps the recursion structural. -/
def gravity_go : ℕ → List BodyState → List BodyState
  | 0, bs => bs
  | _ + 1, [] => []
  | n + 1, b :: rest =>
    let r := gravity_inner b rest
    r.1 :: gravity_go n r.2

/-- `fn gravity` (src/simulation.rs 250-270): visit every unordered pair of
distinct bodies once, in `iter_combinations_mut` order, accumulating equal
and opposite accelerations; `delta` is taken from the `GlobalTransform`
translations (`t.translation().as_dvec3()`). -/
def gravity (bs : List BodyState) : List BodyState := gravity_go bs.length bs

/-- Reference computation, modelled from the spec for the refinement claim:
"the Force Accumulator computes each pair's delta from the bodies' stored
double-precision positions (the `Vec3<f64>` position state that the
Integrator updates)" — the same pair loop as `gravity`, but with `delta`
read from the `position` field instead of the render translation. -/
def gravity_spec_inner : BodyState → List BodyState → BodyState × List BodyState
  | b, [] => (b, [])
  | b, c :: cs =>
    let delta := c.position - b.position
    let distance_sq := length_squared delta
    if distance_sq = 0 then
      let r := gravity_spec_inner b cs
      (r.1, c :: r.2)
    else
      let f := G / distance_sq
      let fum := f • delta
      let r := gravity_spec_inner { b with acceleration := b.acceleration + c.mass • fum } cs
      (r.1, { c with acceleration := c.acceleration - b.mass • fum } :: r.2)

/-- Fuelled outer loop of the reference computation (see `gravity_go`). -/
def gravity_spec_go : ℕ → List BodyState → List BodyState
  | 0, bs => bs
  | _ + 1, [] => []
  | n + 1, b :: rest =>
    let r := gravity_spec_inner b rest
    r.1 :: gravity_spec_go n r.2

/-- The reference gravity pass over the double-precision position snapshot
(spec §4.2 read literally); compared against `gravity` for the claim about
which position representation the Force Accumulator consumes. -/
def gravity_spec (bs : List BodyState) : List BodyState := gravity_spec_go bs.length bs

/-- `fn update_body` (src/simulation.rs 272-289): one integration tick.
`dt = time.delta_seconds_f64() * config.timestep`; for every body, in order:
`v += a * dt; p += v * dt; a = 0; t.translation = p.as_vec3()`. -/
def update_body (realDt timestep : ℚ) (bs : List BodyState) : List BodyState :=
  let dt := realDt * timestep
  bs.map fun b =>
    let v := b.velocity + dt • b.acceleration
    let p := b.position + dt • v
    { b with velocity := v, position := p, acceleration := 0, translation := as_vec3 p }

/-- The `Trail` component: `max_length: usize`, `points: Vec<Vec3>`. -/
@[ext] structure Trail where
  max_length : ℕ
  points : List DVec3
deriving DecidableEq, Repr

/-- The per-trail body of `fn update_trail` (src/simulation.rs 297-300):
`if trail.points.len() >= trail.max_length { trail.points.remove(0); }
trail.points.push(pos.0.as_vec3())`.  `remove(0)` is `List.eraseIdx 0`
(= drop the oldest, front element); on the trails this system can reach the
vector is never empty (every trail is created holding one seed point and a
push follows every removal), so the Rust out-of-bounds panic of `remove(0)`
on an empty vector is unreachable and `eraseIdx` agrees with it. -/
def record (t : Trail) (p : DVec3) : Trail :=
  { t with points :=
      (if t.points.length ≥ t.max_length then t.points.eraseIdx 0 else t.points) ++ [p] }

/-- Iterated `record` calls (the spec's Trail-Store contract quantifies over
"any number of `record` calls"). -/
def recordAll (t : Trail) (ps : List DVec3) : Trail := ps.foldl record t

/-- `struct BodyConfig` (src/simulation.rs 92-101). -/
structure BodyConfig where
  radius : ℚ
  mass : ℚ
  position : DVec3
  velocity : DVec3
  color : Option LinearRgba
  trail_color : Option LinearRgba
  trail_length : ℕ
deriving DecidableEq, Repr

/-- `impl Default for BodyConfig` (src/simulation.rs 103-115). -/
def BodyConfig.default : BodyConfig :=
  { radius := 1, mass := 1, position := 0, velocity := 0,
    color := none, trail_color := none, trail_length := 100 }

/-- The body components spawned by `SpawnBodyCommand::apply`
(src/simulation.rs 142-159): position/velocity/mass verbatim from the
config, `Acceleration(DVec3::ZERO)`, and the render transform translation
`self.body.position.as_vec3()`.  No `TrailRef` is attached at spawn. -/
def body_bundle (cfg : BodyConfig) : BodyState :=
  { position := cfg.position
    velocity := cfg.velocity
    mass := cfg.mass
    acceleration := 0
    translation := as_vec3 cfg.position }

/-- One body entity of the world: the physics components, the `BodyConfig`
component kept from spawn time, and the optional `TrailRef(Entity)`. -/
structure BodyEntity where
  state : BodyState
  config : BodyConfig
  trail_ref : Option ℕ
deriving DecidableEq, Repr

/-- One trail entity: its entity id and its `Trail` component. -/
structure TrailEntity where
  id : ℕ
  trail : Trail
deriving DecidableEq, Repr

/-- The ECS world as the simulation systems see it: the body entities, the
trail entities, and the next fresh entity id. -/
structure World where
  bodies : List BodyEntity
  trails : List TrailEntity
  next_id : ℕ
deriving DecidableEq, Repr

/-- `spawn_body` / `SpawnBodyCommand` (src/simulation.rs 163-175, 126-161):
spawning appends a new body entity built from the config. -/
def spawn_body (w : World) (cfg : BodyConfig) : World :=
  { w with bodies := w.bodies ++ [⟨body_bundle cfg, cfg, none⟩] }

/-- The `BodyConfig` literal of `fn spawn_on_click` (src/simulation.rs
238-246): a small body at `DVec3::from((cursor.0.as_dvec2(), 0.))`. -/
def click_body_config (cursor : Vec2) : BodyConfig :=
  { radius := 0.2, mass := 0.2, position := (cursor.1, cursor.2, 0),
    velocity := 0, color := some (LinearRgba.rgb 5 5 5),
    trail_color := some (1, 1, 1, 0.4), trail_length := 20 }

/-- `fn spawn_on_click` (src/simulation.rs 232-248): on a just-pressed
primary click, unconditionally spawn the click body at the current value of
the `CursorCoords` resource — there is no check that the pointer is inside
the window. -/
def spawn_on_click (just_pressed : Bool) (cursor : Vec2) (w : World) : World :=
  if just_pressed then spawn_body w (click_body_config cursor) else w

/-- `fn my_cursor_system` (src/cursor.rs 21-40): when the cursor position
unprojects to a world position (`window.cursor_position()` is `Some` and
`viewport_to_world` succeeds) the `CursorCoords` resource is overwritten;
otherwise — pointer outside the window — the resource keeps its previous
value (there is no "none" state in `CursorCoords`; it is a plain `Vec2`
defaulting to zero). -/
def my_cursor_system (world_position : Option Vec2) (coords : Vec2) : Vec2 :=
  match world_position with
  | some p => p
  | none => coords

/-- `fn update_trail` (src/simulation.rs 291-303): for every body that has a
`TrailRef` whose trail entity still exists, apply `record` with the body's
current double-precision position narrowed by `as_vec3`; bodies without a
`TrailRef` are not in the query, and a dangling reference is skipped
(`if let Ok`). -/
def update_trail_step (ts : List TrailEntity) (be : BodyEntity) : List TrailEntity :=
  match be.trail_ref with
  | none => ts
  | some r => ts.map fun te =>
      if te.id = r then { te with trail := record te.trail (as_vec3 be.state.position) }
      else te

def update_trail (w : World) : World :=
  { w with trails := w.bodies.foldl update_trail_step w.trails }

/-- The body of `fn draw_trail` for one body entity (src/simulation.rs
312-363), returning the updated body, the updated trail store and the next
fresh id.  A valid `TrailRef` only rewrites the trail mesh (no state
change, `continue`); a dangling one is despawned; a body that reaches the
creation code spawns one trail whose `Trail` starts as
`{ max_length: config.trail_length, points: vec![config.position.as_vec3()] }`
and receives a `TrailRef` to it. -/
def draw_trail_body (be : BodyEntity) (ts : List TrailEntity) (n : ℕ) :
    BodyEntity × List TrailEntity × ℕ :=
  let fresh : TrailEntity :=
    ⟨n, { max_length := be.config.trail_length, points := [as_vec3 be.config.position] }⟩
  match be.trail_ref with
  | some r =>
    if ts.any fun te => te.id = r then (be, ts, n)
    else ({ be with trail_ref := some n }, (ts.filter fun te => te.id ≠ r) ++ [fresh], n + 1)
  | none => ({ be with trail_ref := some n }, ts ++ [fresh], n + 1)

/-- The `draw_trail` query loop over the body entities. -/
def draw_trail_go : List BodyEntity → List TrailEntity → ℕ →
    List BodyEntity × List TrailEntity × ℕ
  | [], ts, n => ([], ts, n)
  | be :: rest, ts, n =>
    let r := draw_trail_body be ts n
    let rest' := draw_trail_go rest r.2.1 r.2.2
    (r.1 :: rest'.1, rest'.2.1, rest'.2.2)

/-- `fn draw_trail` (src/simulation.rs 305-364) as a world transformer. -/
def draw_trail (w : World) : World :=
  let r := draw_trail_go w.bodies w.trails w.next_id
  { bodies := r.1, trails := r.2.1, next_id := r.2.2 }

/-- `enum SimulationState` (src/simulation.rs 19-24); `#[default]` sits on
`Stopped`. -/
inductive SimulationState where
  | Stopped
  | Running
deriving DecidableEq, Repr

/-- The `#[default]` variant used by `init_state::<SimulationState>()`. -/
def default_simulation_state : SimulationState := .Stopped

/-- `enum TrailState` (src/simulation.rs 12-17); `#[default]` sits on
`Show`. -/
inductive TrailState where
  | Hide
  | Show
deriving DecidableEq, Repr

/-- The `#[default]` variant used by `init_state::<TrailState>()`. -/
def default_trail_state : TrailState := .Show

/-- `fn toggle_simulation` (src/simulation.rs 366-377): on a just-pressed
Space, swap the two states; otherwise no transition. -/
def toggle_simulation (just_pressed : Bool) (s : SimulationState) : SimulationState :=
  if just_pressed then
    match s with
    | .Running => .Stopped
    | .Stopped => .Running
  else s

/-- `fn toggle_trail` (src/simulation.rs 379-390): on a just-pressed T, swap
the two states; otherwise no transition. -/
def toggle_trail (just_pressed : Bool) (t : TrailState) : TrailState :=
  if just_pressed then
    match t with
    | .Show => .Hide
    | .Hide => .Show
  else t

/-- The `Update`-schedule trail chain `(update_trail, draw_trail).chain()`
with its run conditions from `GravityPlugin::build` (src/simulation.rs
200-207): it runs only `in_state(TrailState::Show)` AND
`in_state(SimulationState::Running)`; in any other state combination the
frame leaves the world untouched. -/
def trail_frame (sim : SimulationState) (tr : TrailState) (w : World) : World :=
  if sim = SimulationState.Running ∧ tr = TrailState.Show then draw_trail (update_trail w) else w

/-! ### Concrete fixtures used by witnesses and counterexamples -/

/-- A body at rest at the origin (render translation in sync). -/
def zero_body : BodyState :=
  { position := 0, velocity := 0, mass := 1, acceleration := 0, translation := 0 }

/-- The spec's integration-order example: acceleration `(0,0,0)`, velocity
`(1,0,0)`, position `(0,0,0)`. -/
def example_body_int : BodyState :=
  { position := 0, velocity := (1, 0, 0), mass := 1, acceleration := 0, translation := 0 }

/-- Two unit-mass bodies at render translations `(0,0,0)` and `(10,0,0)`. -/
def pair_bodies : List BodyState :=
  [zero_body,
   { position := (10, 0, 0), velocity := 0, mass := 1, acceleration := 0,
     translation := (10, 0, 0) }]

/-- A body whose f64 position `(2²⁵+1, 0, 0)` is not representable in f32:
its render translation (written by the integrator through `as_vec3`) is the
rounded `(2²⁵, 0, 0)`. -/
def offgrid_body : BodyState :=
  { position := (2 ^ 25 + 1, 0, 0), velocity := 0, mass := 1, acceleration := 0,
    translation := (2 ^ 25, 0, 0) }

/-- A two-body snapshot whose translations are exactly the f32 casts of the
positions, yet differ from the f64 positions. -/
def offgrid_bodies : List BodyState := [zero_body, offgrid_body]

/-- A body entity that has moved away from its spawn configuration: config
position `(0,0,0)`, current position `(1,0,0)`, and no trail yet. -/
def moved_body_entity : BodyEntity :=
  { state := { position := (1, 0, 0), velocity := 0, mass := 1, acceleration := 0,
               translation := (1, 0, 0) },
    config := { radius := 1, mass := 1, position := 0, velocity := 0,
                color := none, trail_color := none, trail_length := 100 },
    trail_ref := none }

/-- World holding only `moved_body_entity`, before any trail exists. -/
def moved_body_world : World := ⟨[moved_body_entity], [], 0⟩

/-- A body entity configured with `trail_length = 0` and no trail yet. -/
def cap0_body_entity : BodyEntity :=
  { state := zero_body,
    config := { radius := 1, mass := 1, position := 0, velocity := 0,
                color := none, trail_color := none, trail_length := 0 },
    trail_ref := none }

/-- World holding only `cap0_body_entity`. -/
def cap0_world : World := ⟨[cap0_body_entity], [], 0⟩

/-- Seed point for the FIFO witness. -/
def fifo_seed : DVec3 := 0

/-- Three points recorded after the seed in the FIFO witness. -/
def fifo_ps : List DVec3 := [(1, 0, 0), (2, 0, 0), (3, 0, 0)]

/-! ### Helper lemmas: the pair loop of `gravity` in closed form -/

/-- Squared separation is symmetric in the two endpoints. -/
theorem length_squared_sub_comm (a b : DVec3) :
    length_squared (a - b) = length_squared (b - a) := by
  simp only [length_squared, Prod.fst_sub, Prod.snd_sub]
  ring

/-- The per-unit-mass contributions of a pair to its two members are exactly
opposite (Newton's third law before mass scaling); for a skipped coincident
pair both sides are zero. -/
theorem force_unit_mass_antisymm (b c : BodyState) :
    force_unit_mass b c = - force_unit_mass c b := by
  simp only [force_unit_mass, length_squared_sub_comm c.translation b.translation]
  by_cases h : length_squared (b.translation - c.translation) = 0
  · simp [h]
  · simp only [if_neg h, smul_neg, neg_neg, ← smul_neg, neg_sub]

/-- A coincident pair (`distance_sq == 0`) contributes nothing. -/
theorem accelContrib_of_coincident (b c : BodyState)
    (h : length_squared (c.translation - b.translation) = 0) : accelContrib b c = 0 := by
  simp [accelContrib, force_unit_mass, h]

/-- First component of the inner loop: the first body accumulates the sum of
its contributions from every later body, one term per pair. -/
theorem gravity_inner_fst (l : List BodyState) : ∀ b : BodyState,
    (gravity_inner b l).1
      = { b with acceleration := b.acceleration + (l.map (accelContrib b)).sum } := by
  induction l with
  | nil => intro b; simp [gravity_inner]
  | cons c cs ih =>
    intro b
    by_cases h : length_squared (c.translation - b.translation) = 0
    · simp only [gravity_inner, if_pos h, ih b, List.map_cons, List.sum_cons,
        accelContrib_of_coincident b c h, zero_add]
    · have hc : accelContrib b c
          = c.mass • ((G / length_squared (c.translation - b.translation))
              • (c.translation - b.translation)) := by
        simp [accelContrib, force_unit_mass, if_neg h]
      simp only [gravity_inner, if_neg h,
        ih { b with acceleration := b.acceleration
              + c.mass • ((G / length_squared (c.translation - b.translation))
                  • (c.translation - b.translation)) },
        List.map_cons, List.sum_cons, hc]
      rw [add_assoc]
      rfl

/-- Second component of the inner loop: every later body receives exactly its
(sign-flipped) contribution from the first body. -/
theorem gravity_inner_snd (l : List BodyState) : ∀ b : BodyState,
    (gravity_inner b l).2
      = l.map fun c => { c with acceleration := c.acceleration + accelContrib c b } := by
  induction l with
  | nil => intro b; simp [gravity_inner]
  | cons c cs ih =>
    intro b
    by_cases h : length_squared (c.translation - b.translation) = 0
    · have h' : length_squared (b.translation - c.translation) = 0 := by
        rw [length_squared_sub_comm]; exact h
      simp only [gravity_inner, if_pos h, ih b, List.map_cons]
      rw [accelContrib_of_coincident c b h', add_zero]
    · have h' : length_squared (b.translation - c.translation) ≠ 0 := by
        rw [length_squared_sub_comm]; exact h
      have hc : accelContrib c b
          = b.mass • ((G / length_squared (b.translation - c.translation))
              • (b.translation - c.translation)) := by
        simp [accelContrib, force_unit_mass, if_neg h']
      simp only [gravity_inner, if_neg h, List.map_cons,
        ih { b with acceleration := b.acceleration
              + c.mass • ((G / length_squared (c.translation - b.translation))
                  • (c.translation - b.translation)) }]
      rw [hc, length_squared_sub_comm b.translation c.translation]
      rw [sub_eq_add_neg, ← smul_neg, ← smul_neg, neg_sub]
      rfl

/-- The inner loop does not change how many bodies there are. -/
theorem gravity_inner_snd_length (b : BodyState) (l : List BodyState) :
    (gravity_inner b l).2.length = l.length := by
  rw [gravity_inner_snd]; exact List.length_map l _

/-- Unfolding `gravity` on a cons cell (the fuel always suffices because the
inner loop preserves the length). -/
theorem gravity_cons (b : BodyState) (rest : List BodyState) :
    gravity (b :: rest) = (gravity_inner b rest).1 :: gravity (gravity_inner b rest).2 := by
  show gravity_go (rest.length + 1) (b :: rest) = _
  simp only [gravity_go, gravity]
  rw [gravity_inner_snd_length b rest]

/-- Adding an acceleration offset that depends only on the immutable fields
of each body (mass, translation) commutes with the whole `gravity` pass. -/
theorem gravity_map_accel_add (l : List BodyState) : ∀ g : BodyState → DVec3,
    (∀ c v, g { c with acceleration := v } = g c) →
    gravity (l.map fun c => { c with acceleration := c.acceleration + g c })
      = (gravity l).map fun c => { c with acceleration := c.acceleration + g c } := by
  induction l with
  | nil => intro g _; rfl
  | cons b rest ih =>
    intro g hg
    rw [List.map_cons, gravity_cons, gravity_cons, List.map_cons]
    refine congrArg₂ List.cons ?_ ?_
    · rw [gravity_inner_fst, gravity_inner_fst]
      have e1 : ((rest.map fun c => { c with acceleration := c.acceleration + g c }).map
            (accelContrib ({ b with acceleration := b.acceleration + g b })))
          = rest.map (accelContrib b) := by
        rw [List.map_map]; rfl
      rw [e1]
      show ({ b with
                acceleration := (b.acceleration + g b) + (rest.map (accelContrib b)).sum }
              : BodyState)
          = ({ b with
                acceleration := (b.acceleration + (rest.map (accelContrib b)).sum)
                  + g ({ b with
                          acceleration := b.acceleration + (rest.map (accelContrib b)).sum }) }
              : BodyState)
      rw [hg b (b.acceleration + (rest.map (accelContrib b)).sum), add_right_comm]
    · rw [gravity_inner_snd, gravity_inner_snd, List.map_map]
      have e2 : ((fun c : BodyState =>
              { c with
                  acceleration := c.acceleration
                    + accelContrib c ({ b with acceleration := b.acceleration + g b }) })
            ∘ fun c : BodyState => { c with acceleration := c.acceleration + g c })
          = fun c : BodyState =>
              { c with acceleration := c.acceleration + (g c + accelContrib c b) } := by
        funext c
        show ({ c with acceleration := (c.acceleration + g c) + accelContrib c b } : BodyState)
            = _
        rw [add_assoc]
      rw [e2, ih _ (fun c v => by rw [hg c v]; rfl)]
      rw [ih (fun c => accelContrib c b) (fun c v => rfl), List.map_map]
      have e3 : ((fun c : BodyState => { c with acceleration := c.acceleration + g c })
            ∘ fun c : BodyState => { c with acceleration := c.acceleration + accelContrib c b })
          = fun c : BodyState =>
              { c with acceleration := c.acceleration + (g c + accelContrib c b) } := by
        funext x
        show ({ x with
                  acceleration := (x.acceleration + accelContrib x b)
                    + g ({ x with acceleration := x.acceleration + accelContrib x b }) }
              : BodyState)
            = _
        rw [hg x (x.acceleration + accelContrib x b), add_assoc,
          add_comm (accelContrib x b) (g x)]
      rw [e3]

/-- Closed form of the whole `gravity` pass: body `i` ends with its initial
acceleration plus exactly one contribution per other body (each unordered
pair is accounted once on each side). -/
theorem gravity_getElem (bs : List BodyState) : ∀ i : ℕ,
    (gravity bs)[i]? = (bs[i]?).map fun x => { x with acceleration :=
        x.acceleration + ((bs.eraseIdx i).map (accelContrib x)).sum } := by
  induction bs with
  | nil => intro i; rfl
  | cons b rest ih =>
    intro i
    match i with
    | 0 =>
      rw [gravity_cons]
      simp only [List.getElem?_cons_zero, List.eraseIdx_cons_zero, Option.map_some']
      rw [gravity_inner_fst]
    | i + 1 =>
      rw [gravity_cons]
      simp only [List.getElem?_cons_succ, List.eraseIdx_cons_succ]
      rw [gravity_inner_snd,
        gravity_map_accel_add rest (fun c => accelContrib c b) (fun c v => rfl)]
      rw [List.getElem?_map, ih i]
      cases hrest : rest[i]? with
      | none => rfl
      | some x =>
        simp only [Option.map_some', List.map_cons, List.sum_cons]
        show some { x with acceleration := (x.acceleration
                + ((rest.eraseIdx i).map (accelContrib x)).sum) + accelContrib x b }
            = _
        rw [add_assoc, add_comm _ (accelContrib x b)]

/-! ### Helper lemmas: `gravity` versus the position-reading reference pass -/

/-- On bodies whose `position` field has been overwritten with the render
translation, the inner reference loop computes exactly the inner `gravity`
loop (same branches, same updates). -/
theorem gravity_spec_inner_map (l : List BodyState) : ∀ b : BodyState,
    gravity_spec_inner ({ b with position := b.translation })
        (l.map fun c => { c with position := c.translation })
      = (({ (gravity_inner b l).1 with position := (gravity_inner b l).1.translation }),
          (gravity_inner b l).2.map fun c => { c with position := c.translation }) := by
  induction l with
  | nil => intro b; rfl
  | cons c cs ih =>
    intro b
    by_cases h : length_squared (c.translation - b.translation) = 0
    · simp only [List.map_cons, gravity_spec_inner, gravity_inner]
      rw [if_pos h, if_pos h, ih b]
      rfl
    · simp only [List.map_cons, gravity_spec_inner, gravity_inner]
      rw [if_neg h, if_neg h,
        ih ({ b with acceleration := b.acceleration
                + c.mass • ((G / length_squared (c.translation - b.translation))
                    • (c.translation - b.translation)) })]
      rfl

/-- Fuelled version of the correspondence between the two passes. -/
theorem gravity_spec_go_map (n : ℕ) : ∀ l : List BodyState,
    gravity_spec_go n (l.map fun c => { c with position := c.translation })
      = (gravity_go n l).map fun c => { c with position := c.translation } := by
  induction n with
  | zero => intro l; rfl
  | succ n ih =>
    intro l
    match l with
    | [] => rfl
    | b :: rest =>
      rw [List.map_cons]
      show gravity_spec_go (n + 1)
          (({ b with position := b.translation })
            :: rest.map fun c => { c with position := c.translation }) = _
      simp only [gravity_spec_go, gravity_go]
      rw [gravity_spec_inner_map rest b, ih]
      rw [List.map_cons]

/-- The reference pass over the f32-rounded snapshot agrees with `gravity`:
running the position-reading loop on bodies whose positions are replaced by
their render translations yields the very accelerations `gravity` computes. -/
theorem gravity_spec_map (bs : List BodyState) :
    gravity_spec (bs.map fun c => { c with position := c.translation })
      = (gravity bs).map fun c => { c with position := c.translation } := by
  unfold gravity_spec gravity
  rw [List.length_map]
  exact gravity_spec_go_map bs.length bs

/-! ### Helper lemmas: evaluating the f32 narrowing cast -/

/-- Uniqueness of the binade exponent. -/
theorem log2_eq_of_bounds (q : ℚ) (e : ℤ) (h0 : 0 < q) (h1 : 2 ^ e ≤ q)
    (h2 : q < 2 ^ (e + 1)) : Int.log 2 q = e := by
  have hb : 1 < 2 := by norm_num
  refine le_antisymm ?_ ?_
  · have h2' : q < ((2 : ℕ) : ℚ) ^ (e + 1) := by exact_mod_cast h2
    have := (Int.lt_zpow_iff_log_lt hb h0).mp h2'
    omega
  · have h1' : ((2 : ℕ) : ℚ) ^ e ≤ q := by exact_mod_cast h1
    exact (Int.zpow_le_iff_le_log hb h0).mp h1'

/-- Evaluating `toF32` once the binade of the input is known (normal range). -/
theorem toF32_eq_exp (q : ℚ) (e : ℤ) (h0 : 0 < q) (h1 : 2 ^ e ≤ q)
    (h2 : q < 2 ^ (e + 1)) (he : -126 ≤ e) :
    toF32 q = (rne (q / 2 ^ (e - 23)) : ℚ) * 2 ^ (e - 23) := by
  have hlog : Int.log 2 |q| = e := by
    rw [abs_of_pos h0]; exact log2_eq_of_bounds q e h0 h1 h2
  have hmax : max (Int.log 2 |q| - 23) (-149) = e - 23 := by
    rw [hlog]; exact max_eq_left (by omega)
  rw [toF32, if_neg (ne_of_gt h0), hmax]

/-- `rne` at an integer. -/
theorem rne_intCast (n : ℤ) : rne (n : ℚ) = n := by
  simp [rne]

/-- The cast fixes `0`. -/
theorem toF32_zero : toF32 0 = 0 := by
  simp [toF32]

/-- The cast fixes `1`. -/
theorem toF32_one : toF32 1 = 1 := by
  rw [toF32_eq_exp 1 0 one_pos (by norm_num) (by norm_num) (by norm_num)]
  have h1 : (1 : ℚ) / 2 ^ ((0 : ℤ) - 23) = ((2 ^ 23 : ℤ) : ℚ) := by
    rw [zero_sub, zpow_neg, one_div, inv_inv]
    norm_num
  rw [h1, rne_intCast]
  rw [zero_sub, zpow_neg]
  norm_num

/-- `2²⁵ + 1` is not an f32: the cast rounds it down to `2²⁵`. -/
theorem toF32_pow25_add_one : toF32 (2 ^ 25 + 1) = 2 ^ 25 := by
  rw [toF32_eq_exp (2 ^ 25 + 1) 25 (by norm_num) (by norm_num) (by norm_num) (by norm_num)]
  have h1 : ((2 : ℚ) ^ 25 + 1) / 2 ^ ((25 : ℤ) - 23) = 33554433 / 4 := by
    norm_num
  have h2 : rne ((33554433 : ℚ) / 4) = 8388608 := by
    have hf : ⌊(33554433 : ℚ) / 4⌋ = 8388608 := by norm_num
    norm_num [rne, hf]
  rw [h1, h2]
  norm_num

/-- The cast fixes `2²⁵`. -/
theorem toF32_pow25 : toF32 (2 ^ 25) = 2 ^ 25 := by
  rw [toF32_eq_exp (2 ^ 25) 25 (by norm_num) (by norm_num) (by norm_num) (by norm_num)]
  have h1 : ((2 : ℚ) ^ 25) / 2 ^ ((25 : ℤ) - 23) = ((8388608 : ℤ) : ℚ) := by
    norm_num
  rw [h1, rne_intCast]
  norm_num

/-- `as_vec3` fixes the zero vector. -/
theorem as_vec3_zero : as_vec3 0 = 0 := by
  simp [as_vec3, toF32_zero]

/-! ### Helper lemmas: trail recording -/

/-- Closed form of iterated recording: starting from a nonempty point list
within capacity (capacity at least 1), the points kept are exactly the most
recent `max_length` of everything recorded so far, in order. -/
theorem recordAll_points (cap : ℕ) :
    ∀ (ps : List DVec3) (l : List DVec3), l ≠ [] → l.length ≤ cap →
      (recordAll { max_length := cap, points := l } ps).points
        = (l ++ ps).drop ((l ++ ps).length - cap) := by
  intro ps
  induction ps with
  | nil =>
    intro l hne hlen
    have h0 : l.length - cap = 0 := by omega
    rw [recordAll]
    simp only [List.foldl_nil, List.append_nil, h0, List.drop_zero]
  | cons p ps ih =>
    intro l hne hlen
    rw [recordAll, List.foldl_cons]
    by_cases h : l.length ≥ cap
    · have hlc : l.length = cap := le_antisymm hlen h
      have hrec : record { max_length := cap, points := l } p
          = { max_length := cap, points := l.eraseIdx 0 ++ [p] } := by
        simp [record, h]
      rw [hrec]
      have hne' : l.eraseIdx 0 ++ [p] ≠ [] := by
        intro hc
        exact absurd (congrArg List.length hc) (by simp)
      have hlen' : (l.eraseIdx 0 ++ [p]).length ≤ cap := by
        rcases l with _ | ⟨a, l'⟩
        · exact absurd rfl hne
        · simp only [List.eraseIdx_cons_zero, List.length_append, List.length_cons,
            List.length_nil] at hlc ⊢
          omega
      have := ih (l.eraseIdx 0 ++ [p]) hne' hlen'
      rw [show recordAll { max_length := cap, points := l.eraseIdx 0 ++ [p] } ps
            = List.foldl record { max_length := cap, points := l.eraseIdx 0 ++ [p] } ps
          from rfl] at this
      rw [this]
      rcases l with _ | ⟨a, l'⟩
      · exact absurd rfl hne
      · simp only [List.eraseIdx_cons_zero, List.length_cons] at hlc ⊢
        rw [List.append_assoc, List.singleton_append, List.cons_append]
        have e1 : (l' ++ p :: ps).length - cap = (l' ++ p :: ps).length - cap := rfl
        have e2 : (a :: (l' ++ p :: ps)).length - cap = (l' ++ p :: ps).length + 1 - cap := by
          simp
        rw [e2]
        have hlen2 : cap ≤ (l' ++ p :: ps).length := by simp; omega
        rw [show (l' ++ p :: ps).length + 1 - cap = ((l' ++ p :: ps).length - cap) + 1 by omega]
        rw [List.drop_succ_cons]
    · have hrec : record { max_length := cap, points := l } p
          = { max_length := cap, points := l ++ [p] } := by
        simp [record, h]
      rw [hrec]
      have hne' : l ++ [p] ≠ [] := by
        intro hc
        exact absurd (congrArg List.length hc) (by simp)
      have hlen' : (l ++ [p]).length ≤ cap := by simp; omega
      have := ih (l ++ [p]) hne' hlen'
      rw [show recordAll { max_length := cap, points := l ++ [p] } ps
            = List.foldl record { max_length := cap, points := l ++ [p] } ps
          from rfl] at this
      rw [this, List.append_assoc, List.singleton_append]

/-- The squared length of the zero vector. -/
theorem length_squared_zero : length_squared 0 = 0 := by
  norm_num [length_squared]

/-! ### Claim theorems -/

/-- Claim C1: the gravity pass visits every unordered pair of distinct bodies
exactly once; with `delta = pos_j - pos_i` over the snapshot it reads and
`f = G / distSq`, it adds `(delta * f) * mass_j` to body `i` and subtracts
`(delta * f) * mass_i` from body `j` (equivalently adds the mirrored
contribution), so body `i` ends with its initial acceleration plus exactly
one `accelContrib` term per other body; the per-unit-mass contributions of a
pair are exactly opposite; and `G = 1.1334e-11`. -/
theorem gravity_pair_once_newton3 (bs : List BodyState) (i : ℕ) :
    ((gravity bs)[i]? = (bs[i]?).map fun x => { x with acceleration :=
        x.acceleration + ((bs.eraseIdx i).map (accelContrib x)).sum })
    ∧ (∀ b c : BodyState, accelContrib b c = c.mass • force_unit_mass b c)
    ∧ (∀ b c : BodyState, force_unit_mass b c = - force_unit_mass c b)
    ∧ G = 1.1334e-11 := by
  refine ⟨gravity_getElem bs i, fun b c => rfl, force_unit_mass_antisymm, ?_⟩
  norm_num [G]

/-- Claim C2: one integration tick uses `dt = realDt * timestep`; every body
first gains `acceleration * dt` on its velocity, then moves by the already
updated velocity times `dt`, then has its acceleration zeroed; on the spec's
single-body example (acceleration 0, velocity `(1,0,0)`, position `(0,0,0)`,
`dt = 1`) the velocity stays `(1,0,0)` and the position becomes `(1,0,0)`. -/
theorem update_body_semi_implicit_euler (realDt ts : ℚ) (bs : List BodyState) (i : ℕ) :
    ((update_body realDt ts bs)[i]? = (bs[i]?).map fun b =>
      { b with
          velocity := b.velocity + (realDt * ts) • b.acceleration,
          position := b.position
            + (realDt * ts) • (b.velocity + (realDt * ts) • b.acceleration),
          acceleration := 0,
          translation := as_vec3 (b.position
            + (realDt * ts) • (b.velocity + (realDt * ts) • b.acceleration)) })
    ∧ (update_body 1 1 [example_body_int]).map BodyState.velocity = [((1 : ℚ), 0, 0)]
    ∧ (update_body 1 1 [example_body_int]).map BodyState.position = [((1 : ℚ), 0, 0)] := by
  refine ⟨?_, ?_, ?_⟩
  · show (List.map _ bs)[i]? = _
    rw [List.getElem?_map]
  · simp [update_body, example_body_int, Prod.smul_mk, smul_eq_mul]
  · simp [update_body, example_body_int, Prod.smul_mk, smul_eq_mul]

/-- Claim C8: acceleration is the zero vector at spawn
(`Acceleration(DVec3::ZERO)`); after every integration tick every body's
acceleration is zero again (reset once per tick); the velocity update of the
tick consumes the pre-reset acceleration (`v += a * dt` before `a = 0`); and
the body list entering the next tick's force accumulation — the output of a
full `gravity`-then-`update_body` tick — carries only zero accelerations. -/
theorem acceleration_reset_per_tick (cfg : BodyConfig) (realDt ts : ℚ)
    (bs : List BodyState) (b : BodyState) (hb : b ∈ update_body realDt ts bs) (i : ℕ) :
    (body_bundle cfg).acceleration = 0
    ∧ b.acceleration = 0
    ∧ (((update_body realDt ts bs)[i]?).map BodyState.velocity
        = (bs[i]?).map fun x => x.velocity + (realDt * ts) • x.acceleration)
    ∧ (∀ b2 ∈ update_body realDt ts (gravity bs), b2.acceleration = 0) := by
  refine ⟨rfl, ?_, ?_, ?_⟩
  · obtain ⟨a, _, rfl⟩ := List.mem_map.mp hb
    rfl
  · show ((List.map _ bs)[i]?).map _ = _
    rw [List.getElem?_map, Option.map_map]
    rfl
  · intro b2 hb2
    obtain ⟨a, _, rfl⟩ := List.mem_map.mp hb2
    rfl

/-- Claim C8 witness: the hypotheses discharged on a concrete one-body
tick. -/
theorem acceleration_reset_per_tick_witness :
    (zero_body ∈ update_body 1 1 [zero_body])
    ∧ ((body_bundle BodyConfig.default).acceleration = 0
        ∧ zero_body.acceleration = 0
        ∧ (((update_body 1 1 [zero_body])[0]?).map BodyState.velocity
            = (([zero_body] : List BodyState)[0]?).map fun x =>
                x.velocity + ((1 : ℚ) * 1) • x.acceleration)
        ∧ (∀ b2 ∈ update_body 1 1 (gravity [zero_body]), b2.acceleration = 0)) := by
  have hb : zero_body ∈ update_body 1 1 [zero_body] := by
    have h : update_body 1 1 [zero_body] = [zero_body] := by
      simp [update_body, zero_body, as_vec3_zero, Prod.smul_mk, smul_eq_mul]
    rw [h]
    exact List.mem_singleton.mpr rfl
  exact ⟨hb, acceleration_reset_per_tick BodyConfig.default 1 1 [zero_body] zero_body hb 0⟩

/-- Claim C9: both state machines start at their `#[default]` states
(`Stopped`, `Show`); the only transition is the toggle between the two
states (no transition without the input); toggling twice is the identity;
and while the simulation is `Stopped` the trail systems do not run, so a
frame leaves every trail's point sequence unchanged. -/
theorem state_machines_and_gating (s : SimulationState) (t : TrailState)
    (tr : TrailState) (w : World) :
    default_simulation_state = SimulationState.Stopped
    ∧ default_trail_state = TrailState.Show
    ∧ toggle_simulation true SimulationState.Stopped = SimulationState.Running
    ∧ toggle_simulation true SimulationState.Running = SimulationState.Stopped
    ∧ toggle_simulation false s = s
    ∧ toggle_trail true TrailState.Show = TrailState.Hide
    ∧ toggle_trail true TrailState.Hide = TrailState.Show
    ∧ toggle_trail false t = t
    ∧ toggle_simulation true (toggle_simulation true s) = s
    ∧ toggle_trail true (toggle_trail true t) = t
    ∧ trail_frame SimulationState.Stopped tr w = w := by
  refine ⟨rfl, rfl, rfl, rfl, rfl, rfl, rfl, rfl, ?_, ?_, ?_⟩
  · cases s <;> rfl
  · cases t <;> rfl
  · simp [trail_frame]

/-- Claim C10: after every integration tick, each body's render transform
translation is exactly the f32 cast (`as_vec3`) of its double-precision
position — `update_body` writes `t.translation = p.as_vec3()` for every
body, every tick. -/
theorem update_body_translation_sync (realDt ts : ℚ) (bs : List BodyState)
    (b : BodyState) (hb : b ∈ update_body realDt ts bs) :
    b.translation = as_vec3 b.position := by
  obtain ⟨a, _, rfl⟩ := List.mem_map.mp hb
  rfl

/-- Claim C10 witness: the membership hypothesis discharged on a concrete
one-body tick. -/
theorem update_body_translation_sync_witness :
    (zero_body ∈ update_body 1 1 [zero_body])
    ∧ zero_body.translation = as_vec3 zero_body.position := by
  have hb : zero_body ∈ update_body 1 1 [zero_body] := by
    have h : update_body 1 1 [zero_body] = [zero_body] := by
      simp [update_body, zero_body, as_vec3_zero, Prod.smul_mk, smul_eq_mul]
    rw [h]
    exact List.mem_singleton.mpr rfl
  exact ⟨hb, update_body_translation_sync 1 1 [zero_body] zero_body hb⟩

/-- Claim C5: a coincident pair (`distSq == 0`) is skipped entirely: its
per-unit-mass force and both mass-scaled contributions are zero, a two-body
coincident system is left completely unchanged by the gravity pass, and the
general closed form still holds (every acceleration is a well-defined sum in
which the coincident pair's term is the zero just proved — the guarded
branch means `G / distSq` is never evaluated at zero). -/
theorem gravity_coincident_pair_skipped (bs : List BodyState) (b c : BodyState)
    (h : c.translation = b.translation) (i : ℕ) :
    force_unit_mass b c = 0
    ∧ accelContrib b c = 0
    ∧ accelContrib c b = 0
    ∧ gravity [b, c] = [b, c]
    ∧ ((gravity bs)[i]? = (bs[i]?).map fun x => { x with acceleration :=
        x.acceleration + ((bs.eraseIdx i).map (accelContrib x)).sum }) := by
  have hd : length_squared (c.translation - b.translation) = 0 := by
    rw [h, sub_self]; exact length_squared_zero
  have hd' : length_squared (b.translation - c.translation) = 0 := by
    rw [h, sub_self]; exact length_squared_zero
  have hfum : force_unit_mass b c = 0 := by
    simp [force_unit_mass, hd]
  have hfum' : force_unit_mass c b = 0 := by
    simp [force_unit_mass, hd']
  refine ⟨hfum, ?_, ?_, ?_, gravity_getElem bs i⟩
  · simp [accelContrib, hfum]
  · simp [accelContrib, hfum']
  · show gravity_go 2 [b, c] = [b, c]
    simp [gravity_go, gravity_inner, hd]

/-- Claim C5 witness: the coincidence hypothesis discharged on two bodies at
the same translation. -/
theorem gravity_coincident_pair_skipped_witness :
    (zero_body.translation = zero_body.translation)
    ∧ (force_unit_mass zero_body zero_body = 0
        ∧ accelContrib zero_body zero_body = 0
        ∧ accelContrib zero_body zero_body = 0
        ∧ gravity [zero_body, zero_body] = [zero_body, zero_body]
        ∧ ((gravity [zero_body, zero_body])[0]?
            = ((([zero_body, zero_body] : List BodyState)[0]?).map fun x =>
                { x with acceleration := x.acceleration
                    + (([zero_body, zero_body].eraseIdx 0).map (accelContrib x)).sum }))) :=
  ⟨rfl, gravity_coincident_pair_skipped [zero_body, zero_body] zero_body zero_body rfl 0⟩

/-- Claim C3 counterexample: with `capacity = 0` the invariant
`len(points) ≤ capacity` is false on the code.  The lazily created trail of a
body configured with `trail_length = 0` holds its one seed point, so
`1 ≤ 0` fails — and a further `record` call keeps the length at `1`. -/
theorem trail_capacity_zero_cex :
    ¬ (∀ te ∈ (draw_trail cap0_world).trails, te.trail.points.length ≤ te.trail.max_length)
    ∧ ¬ ((record { max_length := 0, points := [((0 : ℚ), (0 : ℚ), (0 : ℚ))] } 0).points.length
          ≤ 0) := by
  constructor
  · intro hall
    have h : draw_trail cap0_world
        = ⟨[{ cap0_body_entity with trail_ref := some 0 }],
           [⟨0, { max_length := 0, points := [0] }⟩], 1⟩ := by
      simp [draw_trail, draw_trail_go, draw_trail_body, cap0_world, cap0_body_entity,
        as_vec3_zero]
    rw [h] at hall
    have h1 := hall ⟨0, { max_length := 0, points := [0] }⟩ (by simp)
    simp at h1
  · simp [record]

/-- Claim C3 (amended to capacities of at least 1, which every trail the
program itself configures satisfies): starting from the lazily created trail
seeded with one point, after any number of `record` calls the points kept
are exactly the most recent `capacity` of everything recorded (seed
included), oldest evicted first, and the length never exceeds the
capacity. -/
theorem trail_record_fifo (cap : ℕ) (hcap : 1 ≤ cap) (p0 : DVec3) (ps : List DVec3) :
    (recordAll { max_length := cap, points := [p0] } ps).points
        = (p0 :: ps).drop ((p0 :: ps).length - cap)
    ∧ (recordAll { max_length := cap, points := [p0] } ps).points.length ≤ cap := by
  have h := recordAll_points cap ps [p0] (by simp) (by simpa using hcap)
  rw [List.singleton_append] at h
  refine ⟨h, ?_⟩
  rw [h, List.length_drop]
  omega

/-- Claim C3 witness: capacity 2, seed plus three recorded points. -/
theorem trail_record_fifo_witness :
    (1 ≤ 2)
    ∧ ((recordAll { max_length := 2, points := [fifo_seed] } fifo_ps).points
        = (fifo_seed :: fifo_ps).drop ((fifo_seed :: fifo_ps).length - 2)
      ∧ (recordAll { max_length := 2, points := [fifo_seed] } fifo_ps).points.length ≤ 2) :=
  ⟨by decide, trail_record_fifo 2 (by decide) fifo_seed fifo_ps⟩

/-- Claim C4 counterexample: when the pointer is outside the window at click
time, no spawn is dropped.  The cursor system leaves `CursorCoords` at its
previous value (initially zero), and the click handler spawns a body
unconditionally — the body count grows from 0 to 1, refuting "no body is
created". -/
theorem click_outside_window_cex :
    my_cursor_system none (0, 0) = (0, 0)
    ∧ (spawn_on_click true (my_cursor_system none (0, 0)) ⟨[], [], 0⟩).bodies.length = 1
    ∧ (spawn_on_click true (my_cursor_system none (0, 0)) ⟨[], [], 0⟩).bodies ≠ [] := by
  refine ⟨rfl, rfl, ?_⟩
  simp [spawn_on_click, spawn_body, my_cursor_system]

/-- Claim C4 (amended): `CursorCoords` has no "none" state — when the
pointer is outside the window the resource keeps its previous coordinates,
and a primary click always spawns one body at those retained coordinates
(the spawn request is never dropped). -/
theorem click_spawns_at_retained_cursor (coords : Vec2) (w : World) :
    my_cursor_system none coords = coords
    ∧ spawn_on_click true coords w
        = { w with bodies := w.bodies
              ++ [⟨body_bundle (click_body_config coords), click_body_config coords, none⟩] }
    ∧ (spawn_on_click true coords w).bodies.length = w.bodies.length + 1 := by
  refine ⟨rfl, rfl, ?_⟩
  simp [spawn_on_click, spawn_body]

/-- Claim C6 counterexample: the Force Accumulator does not read the stored
f64 positions.  On a reachable snapshot (translations are exactly the
`as_vec3` casts of the positions) with one body at `(2²⁵+1, 0, 0)` — an f64
value that f32 rounds to `2²⁵` — `gravity` (which reads the rounded render
translations) produces accelerations different from the reference pass over
the f64 position snapshot. -/
theorem gravity_reads_translation_cex :
    (∀ b ∈ offgrid_bodies, b.translation = as_vec3 b.position)
    ∧ (gravity offgrid_bodies).map BodyState.acceleration
        ≠ (gravity_spec offgrid_bodies).map BodyState.acceleration := by
  constructor
  · intro b hb
    rcases List.mem_cons.mp hb with rfl | hb2
    · show (0 : DVec3) = as_vec3 0
      rw [as_vec3_zero]
    · rcases List.mem_singleton.mp hb2 with rfl
      show ((2 : ℚ) ^ 25, 0, 0) = as_vec3 ((2 : ℚ) ^ 25 + 1, 0, 0)
      simp [as_vec3, toF32_pow25_add_one, toF32_zero]
  · intro heq
    simp only [offgrid_bodies, offgrid_body, zero_body, gravity, gravity_go, gravity_inner,
      gravity_spec, gravity_spec_go, gravity_spec_inner, length_squared, G,
      List.length_cons, List.length_nil, List.map_cons, List.map_nil] at heq
    norm_num [Prod.smul_mk, smul_eq_mul, Prod.ext_iff] at heq

/-- Claim C6 (amended): the accelerations `gravity` produces equal those of
the reference position-reading computation applied to the f32-rounded
position snapshot (positions replaced by their `as_vec3` casts), not to the
f64 snapshot itself. -/
theorem gravity_over_rounded_snapshot (bs : List BodyState)
    (hsync : ∀ b ∈ bs, b.translation = as_vec3 b.position) :
    (gravity bs).map BodyState.acceleration
      = (gravity_spec (bs.map fun b => { b with position := as_vec3 b.position })).map
          BodyState.acceleration := by
  have hmap : (bs.map fun b => { b with position := as_vec3 b.position })
      = bs.map fun b => { b with position := b.translation } := by
    apply List.map_congr_left
    intro b hb
    rw [hsync b hb]
  rw [hmap, gravity_spec_map, List.map_map]
  rfl

/-- Claim C6 witness: the sync hypothesis discharged on a one-body
snapshot. -/
theorem gravity_over_rounded_snapshot_witness :
    (∀ b ∈ [zero_body], b.translation = as_vec3 b.position)
    ∧ (gravity [zero_body]).map BodyState.acceleration
        = (gravity_spec ([zero_body].map fun b => { b with position := as_vec3 b.position })).map
            BodyState.acceleration := by
  have hsync : ∀ b ∈ [zero_body], b.translation = as_vec3 b.position := by
    intro b hb
    rw [List.mem_singleton.mp hb]
    show (0 : DVec3) = as_vec3 0
    rw [as_vec3_zero]
  exact ⟨hsync, gravity_over_rounded_snapshot [zero_body] hsync⟩

/-- Claim C7 counterexample: the lazily created trail is not seeded with the
body's current position.  For a body whose config position is `(0,0,0)` but
whose current position is `(1,0,0)`, the created trail's sole point is
`(0,0,0)` — the spawn-config position — while the f32 cast of the current
position is `(1,0,0)`. -/
theorem draw_trail_seed_cex :
    ((draw_trail moved_body_world).trails.map fun te => te.trail.points) = [[(0, 0, 0)]]
    ∧ as_vec3 moved_body_entity.state.position = ((1 : ℚ), 0, 0)
    ∧ ([[((0 : ℚ), (0 : ℚ), (0 : ℚ))]] : List (List DVec3))
        ≠ [[((1 : ℚ), (0 : ℚ), (0 : ℚ))]] := by
  refine ⟨?_, ?_, ?_⟩
  · simp [draw_trail, draw_trail_go, draw_trail_body, moved_body_world, moved_body_entity,
      as_vec3_zero]
  · show as_vec3 ((1 : ℚ), 0, 0) = ((1 : ℚ), 0, 0)
    simp [as_vec3, toF32_one, toF32_zero]
  · intro h
    simp only [List.cons.injEq, Prod.mk.injEq, and_true] at h
    norm_num at h

/-- Claim C7 (amended): trail creation is lazy and idempotent — the first
trail pass for a body with no trail reference allocates exactly one trail,
seeded with the body's spawn-config position (`config.position.as_vec3()`,
not its current position) as its sole point; a body whose reference resolves
is left alone (the trail is reused, nothing new is spawned); and running the
pass again after creation changes nothing, so at most one trail exists per
body. -/
theorem draw_trail_lazy_create (be : BodyEntity) (trailsL : List TrailEntity) (n : ℕ)
    (hnone : be.trail_ref = none) :
    (draw_trail ⟨[be], trailsL, n⟩
      = ⟨[{ be with trail_ref := some n }],
          trailsL ++ [⟨n, { max_length := be.config.trail_length,
                            points := [as_vec3 be.config.position] }⟩], n + 1⟩)
    ∧ (∀ (be2 : BodyEntity) (ts2 : List TrailEntity) (n2 r : ℕ), be2.trail_ref = some r →
        (ts2.any fun te => te.id = r) = true → draw_trail ⟨[be2], ts2, n2⟩ = ⟨[be2], ts2, n2⟩)
    ∧ draw_trail (draw_trail ⟨[be], trailsL, n⟩) = draw_trail ⟨[be], trailsL, n⟩ := by
  have hre : ∀ (be2 : BodyEntity) (ts2 : List TrailEntity) (n2 r : ℕ), be2.trail_ref = some r →
      (ts2.any fun te => te.id = r) = true → draw_trail ⟨[be2], ts2, n2⟩ = ⟨[be2], ts2, n2⟩ := by
    intro be2 ts2 n2 r h1 h2
    simp [draw_trail, draw_trail_go, draw_trail_body, h1, h2]
  have hc : draw_trail ⟨[be], trailsL, n⟩
      = ⟨[{ be with trail_ref := some n }],
          trailsL ++ [⟨n, { max_length := be.config.trail_length,
                            points := [as_vec3 be.config.position] }⟩], n + 1⟩ := by
    simp [draw_trail, draw_trail_go, draw_trail_body, hnone]
  refine ⟨hc, hre, ?_⟩
  rw [hc]
  apply hre _ _ _ n rfl
  simp [List.any_append]

/-- Claim C7 witness: the no-trail hypothesis discharged on a concrete
one-body world. -/
theorem draw_trail_lazy_create_witness :
    (moved_body_entity.trail_ref = none)
    ∧ ((draw_trail ⟨[moved_body_entity], [], 0⟩
        = ⟨[{ moved_body_entity with trail_ref := some 0 }],
            [] ++ [⟨0, { max_length := moved_body_entity.config.trail_length,
                          points := [as_vec3 moved_body_entity.config.position] }⟩], 0 + 1⟩)
      ∧ (∀ (be2 : BodyEntity) (ts2 : List TrailEntity) (n2 r : ℕ), be2.trail_ref = some r →
          (ts2.any fun te => te.id = r) = true →
            draw_trail ⟨[be2], ts2, n2⟩ = ⟨[be2], ts2, n2⟩)
      ∧ draw_trail (draw_trail ⟨[moved_body_entity], [], 0⟩)
          = draw_trail ⟨[moved_body_entity], [], 0⟩) :=
  ⟨rfl, draw_trail_lazy_create moved_body_entity [] 0 rfl⟩

end ThreeBody
